import Mathlib

/-!
# Verification of the InvenTree `users/models.py` RBAC core

Shallow embedding of `src/src/backend/InvenTree/users/models.py`:
the RuleSet catalog, the save-time permission normalization, the group
permission reconciliation (`update_group_roles`), the authorization
checks (`check_table_permission`, `check_user_role`,
`check_user_permission`), the `ApiToken` redaction, the `Owner`
registry and the `UserProfile.primary_group` invariant handlers.

Python strings are modelled as `String` (permission keys, only
compared for equality) or `List Char` (the token key, which is
sliced); Python sets as duplicate-free `List`s with insert-if-absent;
database rows as structures; `None`-able arguments as `Option`;
operations that can raise as `Except String`.
-/

/-- Generic Python-set insert: add an element unless already present. -/
def set_insert {α : Type} [BEq α] (l : List α) (a : α) : List α :=
  if l.contains a then l else a :: l

/-- Generic Python-set discard of one element (`set.remove`). -/
def set_remove {α : Type} [BEq α] (l : List α) (a : α) : List α :=
  l.filter (fun x => !(x == a))

/-! ## RuleSet: static catalog (`RULESET_CHOICES`, `get_ruleset_models`,
`get_ruleset_ignore`, `RULESET_CHANGE_INHERIT`) -/

/-- The ruleset names, in the order of `RuleSet.RULESET_CHOICES`. -/
def RULESET_NAMES : List String :=
  ["admin", "part_category", "part", "stocktake", "stock_location",
   "stock", "build", "purchase_order", "sales_order", "return_order"]

/-- `settings.SITE_MULTI`: external Django setting consulted by
`get_ruleset_models`; modelled as disabled (the default). -/
def SITE_MULTI : Bool := false

/-- `RuleSet.get_ruleset_models`: tables governed by each ruleset. -/
def get_ruleset_models (name : String) : List String :=
  if name == "admin" then
    ["auth_group", "auth_user", "auth_permission", "users_apitoken",
     "users_ruleset", "report_labeltemplate", "report_reportasset",
     "report_reportsnippet", "report_reporttemplate", "account_emailaddress",
     "account_emailconfirmation", "socialaccount_socialaccount",
     "socialaccount_socialapp", "socialaccount_socialtoken",
     "otp_totp_totpdevice", "otp_static_statictoken", "otp_static_staticdevice",
     "mfa_authenticator", "plugin_pluginconfig", "plugin_pluginsetting",
     "plugin_notificationusersetting", "common_barcodescanresult",
     "common_newsfeedentry", "taggit_tag", "taggit_taggeditem",
     "flags_flagstate", "machine_machineconfig", "machine_machinesetting"]
      ++ (if SITE_MULTI then ["sites_site"] else [])
  else if name == "part_category" then
    ["part_partcategory", "part_partcategoryparametertemplate",
     "part_partcategorystar"]
  else if name == "part" then
    ["part_part", "part_partpricing", "part_bomitem", "part_bomitemsubstitute",
     "part_partsellpricebreak", "part_partinternalpricebreak",
     "part_parttesttemplate", "part_partparametertemplate", "part_partparameter",
     "part_partrelated", "part_partstar", "part_partcategorystar",
     "company_supplierpart", "company_manufacturerpart",
     "company_manufacturerpartparameter"]
  else if name == "stocktake" then
    ["part_partstocktake", "part_partstocktakereport"]
  else if name == "stock_location" then
    ["stock_stocklocation", "stock_stocklocationtype"]
  else if name == "stock" then
    ["stock_stockitem", "stock_stockitemtracking", "stock_stockitemtestresult"]
  else if name == "build" then
    ["part_part", "part_partcategory", "part_bomitem", "part_bomitemsubstitute",
     "build_build", "build_builditem", "build_buildline", "stock_stockitem",
     "stock_stocklocation"]
  else if name == "purchase_order" then
    ["company_company", "company_contact", "company_address",
     "company_manufacturerpart", "company_manufacturerpartparameter",
     "company_supplierpart", "company_supplierpricebreak",
     "order_purchaseorder", "order_purchaseorderlineitem",
     "order_purchaseorderextraline"]
  else if name == "sales_order" then
    ["company_company", "company_contact", "company_address",
     "order_salesorder", "order_salesorderallocation",
     "order_salesorderlineitem", "order_salesorderextraline",
     "order_salesordershipment"]
  else if name == "return_order" then
    ["company_company", "company_contact", "company_address",
     "order_returnorder", "order_returnorderlineitem",
     "order_returnorderextraline"]
  else []

/-- `RuleSet.get_ruleset_ignore`: tables exempt from permission checks. -/
def get_ruleset_ignore : List String :=
  ["admin_logentry", "contenttypes_contenttype", "common_attachment",
   "common_customunit", "common_dataoutput", "common_inventreesetting",
   "common_inventreeusersetting", "common_notificationentry",
   "common_notificationmessage", "common_notesimage", "common_projectcode",
   "common_webhookendpoint", "common_webhookmessage",
   "common_inventreecustomuserstatemodel", "common_selectionlistentry",
   "common_selectionlist", "users_owner", "users_userprofile",
   "error_report_error", "exchange_rate", "exchange_exchangebackend",
   "usersessions_usersession", "sessions_session", "django_q_ormq",
   "django_q_failure", "django_q_task", "django_q_schedule",
   "django_q_success", "importer_dataimportsession",
   "importer_dataimportcolumnmap", "importer_dataimportrow"]

/-- `RuleSet.RULESET_CHANGE_INHERIT`: (parent, child) inheritance pairs. -/
def RULESET_CHANGE_INHERIT : List (String × String) :=
  [("part", "partparameter"), ("part", "bomitem")]

/-! ## `split_model` / `get_model_permission_string` -/

/-- Python `str.split('_')` on a character list: split at every
underscore, keeping empty pieces. -/
def split_on_underscore : List Char → List (List Char)
  | [] => [[]]
  | c :: rest =>
    let r := split_on_underscore rest
    if c = '_' then [] :: r
    else (c :: r.headD []) :: r.tail

/-- `split_model`: `*app, model = model.split('_')`; the app label is
the remaining pieces joined with an underscore when there are at least
two of them, else the single piece (Python raises when there is none;
every catalog table contains an underscore, so that case is unreached
and modelled as the empty label). Returns `(model, app)`. -/
def split_model (s : String) : String × String :=
  let parts := (split_on_underscore s.toList).map (fun l => String.mk l)
  let app_parts := parts.dropLast
  let m := parts.getLastD ""
  let app :=
    if app_parts.length > 1 then String.intercalate ("_") app_parts
    else app_parts.headD ""
  (m, app)

/-- `RuleSet.get_model_permission_string`: `'{app}.{permission}_{model}'`. -/
def get_model_permission_string (model permission : String) : String :=
  let ma := split_model model
  ma.2 ++ "." ++ permission ++ "_" ++ ma.1

/-! ## `RuleSet.save` normalization -/

/-- The four permission flags of a `RuleSet` row. -/
structure RuleFlags where
  can_view : Bool := false
  can_add : Bool := false
  can_change : Bool := false
  can_delete : Bool := false
  deriving Repr, DecidableEq

/-- `RuleSet.save`: the flag normalization applied before persisting.
First `can_view` is forced when any of add/change/delete is set, then
`can_change` is forced when add or delete is set. -/
def RuleSet_save (r : RuleFlags) : RuleFlags :=
  let r1 :=
    if r.can_add || r.can_change || r.can_delete then
      { r with can_view := true }
    else r
  if r1.can_add || r1.can_delete then { r1 with can_change := true } else r1

/-! ## `ApiToken.token` redaction -/

/-- `ApiToken.token`: the redacted display form. Python slicing on the
key string is modelled on `List Char`: `key[:8]` is `take 8`,
`key[-12:]` is `drop (length - 12)` (truncated subtraction matches
Python's clamping of a negative start index), and `'*' * M` for the
`Int` `M = length - 20` is `replicate M.toNat` (empty when `M < 0`).
An unsaved token (`pk is None`) returns the raw key. -/
def ApiToken_token (pk : Option Nat) (key : List Char) : List Char :=
  match pk with
  | none => key
  | some _ =>
    let M : Int := (key.length : Int) - 20
    key.take 8 ++ List.replicate M.toNat '*' ++ key.drop (key.length - 12)

/-- `ApiToken.expired`: expiry date strictly before the current date
(dates modelled as day ordinals; a null expiry is never expired). -/
def ApiToken_expired (expiry : Option Nat) (today : Nat) : Bool :=
  match expiry with
  | none => false
  | some e => e < today

/-- `ApiToken.active`: not revoked and not expired. -/
def ApiToken_active (revoked : Bool) (expiry : Option Nat) (today : Nat) : Bool :=
  !revoked && !(ApiToken_expired expiry today)

/-! ## Users, groups and the authorization checks -/

/-- One `RuleSet` database row as seen from a group: its name plus the
four flags. -/
structure RuleSetRow where
  name : String
  flags : RuleFlags
  deriving Repr, DecidableEq

/-- A Django `Group`: its id, name, its `rule_sets` rows and its
materialized permission strings (`'app.codename'`). -/
structure GroupRec where
  id : Nat
  gname : String
  rule_sets : List RuleSetRow
  permissions : List String
  deriving Repr, DecidableEq

/-- A Django `User`: id, superuser flag, group memberships, and the
effective permission strings granted by `user.has_perm` (the identity
collaborator resolves these; only membership is consulted here). -/
structure UserRec where
  id : Nat
  is_superuser : Bool
  groups : List GroupRec
  perms : List String
  deriving Repr, DecidableEq

/-- The session cache consulted by `check_user_role`, as a read-only
lookup from cache key to a cached boolean. -/
def SessionCache : Type := String → Option Bool

/-- A cold session cache: every lookup misses. -/
def empty_cache : SessionCache := fun _ => none

/-- The per-action flag test inside `check_user_role`'s inner loop:
`permission == 'add' and rule.can_add`, etc. An unknown permission
name matches nothing. -/
def action_granted (r : RuleSetRow) (permission : String) : Bool :=
  (permission == "add" && r.flags.can_add) ||
  (permission == "change" && r.flags.can_change) ||
  (permission == "view" && r.flags.can_view) ||
  (permission == "delete" && r.flags.can_delete)

/-- `check_user_role(user, role, permission)`. A null user is denied
before anything else; a superuser is allowed; otherwise the session
cache is consulted and on a miss the user's groups' rule sets are
scanned (the Python loop latches `result = True` and never resets it,
i.e. it is an any-of scan). The cache write-back on a miss is a side
effect on the external cache collaborator and is not part of the
returned value. -/
def check_user_role (cache : SessionCache) (user : Option UserRec)
    (role permission : String) : Bool :=
  match user with
  | none => false
  | some u =>
    if u.is_superuser then true
    else
      let cache_key :=
        "role_" ++ toString u.id ++ "_" ++ role ++ "_" ++ permission
      match cache cache_key with
      | some r => r
      | none =>
        u.groups.any (fun g =>
          g.rule_sets.any (fun r => r.name == role && action_granted r permission))

/-- `check_user_permission(user, model, permission)`: null user denied,
superuser allowed, otherwise `user.has_perm('{app}.{permission}_{model}')`
via the user's effective permission strings. -/
def check_user_permission (user : Option UserRec)
    (app_label model_name permission : String) : Bool :=
  match user with
  | none => false
  | some u =>
    if u.is_superuser then true
    else u.perms.contains (app_label ++ "." ++ permission ++ "_" ++ model_name)

/-- `RuleSet.check_table_permission(user, table, permission)`.
The very first access is `user.is_superuser`, so a null user raises an
`AttributeError` (there is no null guard in this classmethod); the
raised exception is the `Except.error` case. Then: exempt tables
always pass; any governing ruleset granted to any of the user's groups
passes; an inheritance child table passes for ANY action whenever the
parent role has `change`; otherwise the check fails (the source logs a
debug message and returns `False`). -/
def check_table_permission (cache : SessionCache) (user : Option UserRec)
    (table permission : String) : Except String Bool :=
  match user with
  | none =>
    Except.error ("AttributeError: NoneType object has no attribute " ++
      "is_superuser")
  | some u =>
    if u.is_superuser then Except.ok true
    else if get_ruleset_ignore.contains table then Except.ok true
    else if RULESET_NAMES.any (fun role =>
        (get_ruleset_models role).contains table &&
        check_user_role cache (some u) role permission) then Except.ok true
    else if RULESET_CHANGE_INHERIT.any (fun pc =>
        (pc.1 ++ "_" ++ pc.2) == table &&
        check_user_role cache (some u) pc.1 ("change")) then Except.ok true
    else Except.ok false

/-! ## `update_group_roles`: the reconciliation engine -/

/-- The two mutable sets built by `add_model` inside
`update_group_roles`: permissions to add and permissions to delete. -/
structure DiffState where
  to_add : List String
  to_delete : List String
  deriving Repr, DecidableEq

/-- One call of the nested `add_model(name, action, allowed)` function.
An allowed action is preferenced over a forbidden one: it is removed
from the delete set and inserted into the add set; a forbidden action
is inserted into the delete set only when not already in the add set.
The permission string is built from the model argument (the source's
`add_model` body reads the enclosing loop variable `model`, which at
every call site of the main loop equals the `name` argument; the
caller passes the leaked loop variable explicitly where they differ).
The source also raises `ValueError` on an action outside
view/add/change/delete; every call site passes a literal from that
list, so the check is unreached and not modelled. -/
def add_model (st : DiffState) (model action : String) (allowed : Bool) :
    DiffState :=
  let ps := get_model_permission_string model action
  if allowed then
    { to_add := set_insert st.to_add ps, to_delete := set_remove st.to_delete ps }
  else if st.to_add.contains ps then st
  else { st with to_delete := set_insert st.to_delete ps }

/-- The `(model, action, allowed)` triples fed to `add_model` by the
main double loop of `update_group_roles`: for every ruleset (in
`RULESET_CHOICES` order, with a missing row defaulting to all-false
flags), for every governed table, the four actions with the row's
flags. -/
def group_events (flags : String → RuleFlags) :
    List (String × String × Bool) :=
  RULESET_NAMES.flatMap (fun rn =>
    (get_ruleset_models rn).flatMap (fun m =>
      let f := flags rn
      [(m, "view", f.can_view), (m, "add", f.can_add),
       (m, "change", f.can_change), (m, "delete", f.can_delete)]))

/-- Fold a list of `add_model` events over a diff state. -/
def run_events (st : DiffState) (evs : List (String × String × Bool)) :
    DiffState :=
  evs.foldl (fun s e => add_model s e.1 e.2.1 e.2.2) st

/-- Result of one `update_group_roles` pass: the group's final
materialized permission set, and the substrate mutations performed
(permissions actually added / actually removed). -/
structure ReconcileResult where
  final : List String
  added : List String
  removed : List String
  deriving Repr, DecidableEq

/-- One step of the inheritance loop at the bottom of
`update_group_roles`, for a `(parent, child)` pair and one action.
`current` is the `group_permissions` set computed at the START of the
pass (the source never refreshes it after the add/remove loops).
When the parent table's permission for this action is materialized and
the child's is not, the source calls
`add_model(parent_child_string, action, ruleset.can_delete)` — whose
body reads the leaked loop variables `model` (the last table of the
last ruleset) and `ruleset` (the last ruleset row) — and then adds the
child permission object to the group unconditionally when it
resolves. -/
def inherit_step (current : List String) (perm_exists : String → Bool)
    (stale_model : String) (stale_can_delete : Bool)
    (acc : List String × List String × DiffState)
    (pca : String × String × String) : List String × List String × DiffState :=
  let parent := pca.1
  let child := pca.2.1
  let action := pca.2.2
  let parent_perm := parent ++ "." ++ action ++ "_" ++ parent
  if current.contains parent_perm then
    let child_perm := parent ++ "." ++ action ++ "_" ++ child
    if current.contains child_perm then acc
    else
      let diff := add_model acc.2.2 stale_model action stale_can_delete
      if perm_exists child_perm then
        (set_insert acc.1 child_perm,
         if acc.1.contains child_perm then acc.2.1
         else acc.2.1 ++ [child_perm],
         diff)
      else (acc.1, acc.2.1, diff)
  else acc

/-- `update_group_roles(group)`. Inputs: the group's `RuleSet` rows as
a total map from ruleset name to flags (the source lazily creates a
missing row with default all-false flags), the group's current
materialized permission set `current`, and the permission-object
resolver `perm_exists` (whether `get_permission_object` finds the
permission in the database; an unresolved permission is skipped).

Steps, as in the source: build the add/delete sets with `add_model`
over every ruleset, table and action; add every resolvable
`to_add` permission not already present; remove every resolvable
`to_delete` permission that was present at the start of the pass;
finally run the inheritance loop for each `(parent, child)` pair and
each action view/change/add/delete against the STALE
`group_permissions` snapshot taken at the start of the pass. -/
def update_group_roles (flags : String → RuleFlags) (current : List String)
    (perm_exists : String → Bool) : ReconcileResult :=
  let diff := run_events ⟨[], []⟩ (group_events flags)
  let adds := diff.to_add.filter (fun p => !(current.contains p) && perm_exists p)
  let after_adds := current ++ adds
  let removes :=
    diff.to_delete.filter (fun p => current.contains p && perm_exists p)
  let after_removes := after_adds.filter (fun p => !(removes.contains p))
  -- the loop variables `model` and `ruleset` leak out of the main loop:
  -- at the inheritance loop they hold the last table of the last ruleset
  -- and the last ruleset's row
  let last_name := RULESET_NAMES.getLastD ""
  let stale_model := (get_ruleset_models last_name).getLastD ""
  let stale_can_delete := (flags last_name).can_delete
  let steps := RULESET_CHANGE_INHERIT.flatMap (fun pc =>
    ["view", "change", "add", "delete"].map (fun a => (pc.1, pc.2, a)))
  let inh := steps.foldl
    (inherit_step current perm_exists stale_model stale_can_delete)
    (after_removes, [], diff)
  { final := inh.1, added := adds ++ inh.2.1, removed := removes }

/-- A permission resolver for a fully migrated database: every
permission object exists. -/
def all_perms_exist : String → Bool := fun _ => true

/-! ## `Owner`: the authorization-subject registry -/

/-- The kind tag of an `Owner` row: the `owner_type` content type. -/
inductive OwnerKind
  | group
  | user
  deriving Repr, DecidableEq, BEq

/-- One `Owner` database row: the `(owner_type, owner_id)` pair
(unique together by the `unique_owner` constraint). -/
structure OwnerRow where
  kind : OwnerKind
  oid : Nat
  deriving Repr, DecidableEq, BEq

/-- The object behind an `Owner`'s generic foreign key, as tested by
`type(self.owner) is Group` / `type(self.owner) is user_model`.
`other` covers every owner object that is not exactly a `Group` or
exactly a user-model instance: a dangling generic reference
(`self.owner is None`) or an instance of some other (or proxy/derived)
type. -/
inductive OwnerObj
  | group (id : Nat) (gname : String)
  | user (id : Nat)
  | other
  deriving Repr, DecidableEq

/-- An `Owner` entity: its row plus its resolved generic target. -/
structure OwnerRec where
  row : OwnerRow
  owner : OwnerObj
  deriving Repr, DecidableEq

/-- Outcome of the `cls.objects.create(owner=obj)` call inside
`Owner.create`: either the freshly inserted row, or a duplicate-key
`IntegrityError` when a concurrent writer inserted the matching row
between the existence check and the insert. -/
inductive CreateOutcome
  | created (o : OwnerRow)
  | integrityError
  deriving Repr, DecidableEq

/-- `Owner.create(obj)`. `existing` is the result of the
`cls.get_owner(obj)` lookup; `insert` is what the subsequent
`objects.create` would do. Returns the resulting owner (`none` models
Python `None`) paired with whether an insert was attempted. On an
`IntegrityError` the source returns `None`. -/
def Owner_create (existing : Option OwnerRow) (insert : CreateOutcome) :
    Option OwnerRow × Bool :=
  match existing with
  | some o => (some o, false)
  | none =>
    match insert with
    | CreateOutcome.created o => (some o, true)
    | CreateOutcome.integrityError => (none, true)

/-- `Owner.get_related_owners(include_group)`. For a group-type owner:
the user-type owner rows of the group's members (member relation given
as (user id, group name) pairs, matching the source's
`filter(groups__name=self.owner.name)`), plus the group-type row
itself when requested. For a user-type owner: the singleton `[self]`.
For anything else the initial `related_owners = None` is returned
unchanged. -/
def get_related_owners (db : List OwnerRow)
    (memberships : List (Nat × String)) (self : OwnerRec)
    (include_group : Bool) : Option (List OwnerRow) :=
  match self.owner with
  | OwnerObj.group gid gname =>
    some (db.filter (fun r =>
      (r.kind == OwnerKind.user && memberships.contains (r.oid, gname)) ||
      (include_group && r.kind == OwnerKind.group && r.oid == gid)))
  | OwnerObj.user _ => some [self.row]
  | OwnerObj.other => none

/-- `Owner.is_user_allowed(user, include_group)`: membership of
`Owner.get_owner(user)` in `get_related_owners`. When
`get_related_owners` returned `None`, the Python expression
`user_owner in None` raises a `TypeError`; that is the `Except.error`
case. A missing user owner row makes the membership test `False`. -/
def is_user_allowed (db : List OwnerRow) (memberships : List (Nat × String))
    (self : OwnerRec) (user_owner : Option OwnerRow) (include_group : Bool) :
    Except String Bool :=
  match get_related_owners db memberships self include_group with
  | none => Except.error ("TypeError: argument of type NoneType is not iterable")
  | some related =>
    Except.ok (match user_owner with
      | some r => related.contains r
      | none => false)

/-! ## `UserProfile.primary_group` and its consistency handlers -/

/-- A `UserProfile` row: the owning user id and the nullable
`primary_group` foreign key (a group id). -/
structure ProfileRec where
  user_id : Nat
  primary_group : Option Nat
  deriving Repr, DecidableEq

/-- The membership/profile state the `primary_group` handlers act on:
the user-group membership pairs and one profile row per user. -/
structure ProfileState where
  memberships : List (Nat × Nat)
  profiles : List ProfileRec
  deriving Repr, DecidableEq

/-- `user.groups.all()` membership test: does user `u` belong to
group `g`? -/
def in_groups (ms : List (Nat × Nat)) (u g : Nat) : Bool :=
  ms.contains (u, g)

/-- The body of `UserProfile.save`: clear `primary_group` unless it is
a group the user currently belongs to (`if self.primary_group and
self.primary_group not in self.user.groups.all()`). -/
def profile_save_fix (ms : List (Nat × Nat)) (p : ProfileRec) : ProfileRec :=
  match p.primary_group with
  | some g => if in_groups ms p.user_id g then p else { p with primary_group := none }
  | none => p

/-- A profile save for user `uid` with field value `new_pg`
(`UserProfile.save` normalizes the stored value). -/
def op_profile_save (st : ProfileState) (uid : Nat) (new_pg : Option Nat) :
    ProfileState :=
  { st with
    profiles := st.profiles.map (fun p =>
      if p.user_id == uid then
        profile_save_fix st.memberships { p with primary_group := new_pg }
      else p) }

/-- `validate_primary_group_on_save` (post_save of a `Group`): every
member of the saved group has their profile re-checked (the handler
clears and saves, and `UserProfile.save` applies the same check). -/
def op_group_save (st : ProfileState) (g : Nat) : ProfileState :=
  { st with
    profiles := st.profiles.map (fun p =>
      if in_groups st.memberships p.user_id g then
        profile_save_fix st.memberships p
      else p) }

/-- Deletion of a group `g`: the membership rows of `g` disappear with
it; the `on_delete=SET_NULL` of the `primary_group` foreign key nulls
every profile referencing `g`; `validate_primary_group_on_delete`
additionally clears `primary_group == instance` for the group's former
members (a no-op after SET_NULL). -/
def op_group_delete (st : ProfileState) (g : Nat) : ProfileState :=
  let former := (st.memberships.filter (fun m => m.2 == g)).map (fun m => m.1)
  let ms := st.memberships.filter (fun m => !(m.2 == g))
  let profs := st.profiles.map (fun p =>
    if p.primary_group == some g then { p with primary_group := none } else p)
  { memberships := ms,
    profiles := profs.map (fun p =>
      if former.contains p.user_id && p.primary_group == some g then
        { p with primary_group := none }
      else p) }

/-- `user.groups.add(g)` followed by the `m2m_changed` handler
`validate_primary_group_on_group_change` for action `post_add`. -/
def op_membership_add (st : ProfileState) (u g : Nat) : ProfileState :=
  let ms := set_insert st.memberships (u, g)
  { memberships := ms,
    profiles := st.profiles.map (fun p =>
      if p.user_id == u then profile_save_fix ms p else p) }

/-- `user.groups.remove(g)` followed by the `m2m_changed` handler for
action `post_remove`. -/
def op_membership_remove (st : ProfileState) (u g : Nat) : ProfileState :=
  let ms := st.memberships.filter (fun m => !(m == (u, g)))
  { memberships := ms,
    profiles := st.profiles.map (fun p =>
      if p.user_id == u then profile_save_fix ms p else p) }

/-- The `primary_group` invariant, §3 of the spec: whenever a
profile's `primary_group` is set, it is a group its user currently
belongs to. -/
def profiles_consistent (st : ProfileState) : Bool :=
  st.profiles.all (fun p =>
    match p.primary_group with
    | some g => st.memberships.contains (p.user_id, g)
    | none => true)

/-! ## Claim theorems -/

/-- C1: for every RuleSet row, after `save()` completes: if any of
`can_add`, `can_change`, `can_delete` was set true then the persisted
row has `can_view = true`; if `can_add` or `can_delete` was set true
then the persisted row has `can_change = true`; in particular a write
setting `can_add = true` reads back with `can_view = true` and
`can_change = true`. -/
theorem c1_save_normalization (r : RuleFlags) :
    ((r.can_add || r.can_change || r.can_delete) = true →
      (RuleSet_save r).can_view = true)
    ∧ ((r.can_add || r.can_delete) = true →
      (RuleSet_save r).can_change = true)
    ∧ (r.can_add = true →
      (RuleSet_save r).can_view = true ∧ (RuleSet_save r).can_change = true) := by
  rcases r with ⟨v, a, c, d⟩
  cases v <;> cases a <;> cases c <;> cases d <;> simp [RuleSet_save]

/-- C1 witness: the normalization evaluated on the row with only
`can_add` set. -/
theorem c1_save_normalization_witness :
    ({ can_add := true : RuleFlags }).can_add = true
    ∧ ((RuleSet_save { can_add := true }).can_view = true
      ∧ (RuleSet_save { can_add := true }).can_change = true) :=
  ⟨by decide, (c1_save_normalization { can_add := true }).2.2 (by decide)⟩

/-- C2 counterexample: `check_table_permission` called with a null
user does not return false — it raises (`user.is_superuser` on `None`
is an `AttributeError`), refuting the claim that every one of the
three authorization queries denies a null user without throwing. -/
theorem c2_null_user_counterexample :
    check_table_permission empty_cache none ("part_part") ("view")
        = Except.error ("AttributeError: NoneType object has no attribute " ++
          "is_superuser")
    ∧ check_table_permission empty_cache none ("part_part") ("view")
        ≠ Except.ok false :=
  ⟨rfl, by simp [check_table_permission]⟩

/-- C2 (amended): `check_user_role` and `check_user_permission` return
false for a null user and never raise; `check_table_permission` has no
null-user guard and raises an `AttributeError` instead of denying. -/
theorem c2_null_user_amended (cache : SessionCache)
    (role permission app_label model_name table : String) :
    check_user_role cache none role permission = false
    ∧ check_user_permission none app_label model_name permission = false
    ∧ check_table_permission cache none table permission
        = Except.error ("AttributeError: NoneType object has no attribute " ++
          "is_superuser") :=
  ⟨rfl, rfl, rfl⟩

/-- C7: for every saved `ApiToken` (the key passed the
`MinLengthValidator(50)`), the redacted token equals the first 8
characters, then `L - 20` mask characters, then the last 12
characters of the raw key, and has the same length `L` as the raw
key (so the 8-char head and 12-char tail are genuine and the middle
is masked). -/
theorem c7_token_redaction (n : Nat) (key : List Char)
    (h : 50 ≤ key.length) :
    ApiToken_token (some n) key
      = key.take 8 ++ List.replicate (key.length - 20) '*'
          ++ key.drop (key.length - 12)
    ∧ (ApiToken_token (some n) key).length = key.length
    ∧ (key.take 8).length = 8
    ∧ (key.drop (key.length - 12)).length = 12 := by
  have hM : ((key.length : Int) - 20).toNat = key.length - 20 := by omega
  refine ⟨by simp only [ApiToken_token, hM], ?_, ?_, ?_⟩
  · simp only [ApiToken_token, hM, List.length_append, List.length_take,
      List.length_drop, List.length_replicate]
    omega
  · simp only [List.length_take]
    omega
  · simp only [List.length_drop]
    omega

/-- C7 witness: the redaction contract evaluated on a concrete
50-character key. -/
theorem c7_token_redaction_witness :
    50 ≤ (List.replicate 50 'k').length
    ∧ ((ApiToken_token (some 1) (List.replicate 50 'k')
        = (List.replicate 50 'k').take 8
            ++ List.replicate ((List.replicate 50 'k').length - 20) '*'
            ++ (List.replicate 50 'k').drop ((List.replicate 50 'k').length - 12))
      ∧ (ApiToken_token (some 1) (List.replicate 50 'k')).length
          = (List.replicate 50 'k').length
      ∧ ((List.replicate 50 'k').take 8).length = 8
      ∧ ((List.replicate 50 'k').drop ((List.replicate 50 'k').length - 12)).length
          = 12) :=
  ⟨by decide, c7_token_redaction 1 (List.replicate 50 'k') (by decide)⟩

/-- C8 counterexample: when the existence check finds no owner and the
insert then hits a duplicate-key `IntegrityError` (a concurrent writer
created the matching row), `Owner.create` returns `None` — not the
existing entity, refuting the claim that the race returns the
existing owner. -/
theorem c8_create_race_counterexample :
    (Owner_create none CreateOutcome.integrityError).1 = none
    ∧ (Owner_create none CreateOutcome.integrityError).1
        ≠ some { kind := OwnerKind.group, oid := 1 } :=
  ⟨rfl, by decide⟩

/-- C8 (amended): `Owner.create` is idempotent at lookup time — an
owner matching at the existence check is returned unchanged with no
insert attempted — and a duplicate-key `IntegrityError` under a race
is swallowed, but the call then returns `None` rather than the
existing entity. -/
theorem c8_create_amended (o : OwnerRow) (ins : CreateOutcome) :
    Owner_create (some o) ins = (some o, false)
    ∧ (Owner_create none CreateOutcome.integrityError).1 = none :=
  ⟨rfl, rfl⟩

/-- C10: `get_related_owners` returns a non-null sequence exactly when
the resolved owner object is exactly a `Group` or exactly a user-model
instance; for any other owner (a dangling generic reference included)
it returns `None` rather than an empty sequence, and `is_user_allowed`
— which tests membership in that result — raises a `TypeError` instead
of returning false. -/
theorem c10_related_owners_none (db : List OwnerRow)
    (ms : List (Nat × String)) (self : OwnerRec) (inc : Bool)
    (uo : Option OwnerRow) :
    ((get_related_owners db ms self inc).isSome
      ↔ (∃ gid gn, self.owner = OwnerObj.group gid gn)
        ∨ (∃ uid, self.owner = OwnerObj.user uid))
    ∧ (self.owner = OwnerObj.other →
        get_related_owners db ms self inc = none
        ∧ is_user_allowed db ms self uo inc
            = Except.error ("TypeError: argument of type NoneType is not " ++
              "iterable")) := by
  rcases self with ⟨row, o⟩
  cases o <;> simp [get_related_owners, is_user_allowed]

/-- C10 witness: a concrete owner whose generic reference dangles. -/
theorem c10_related_owners_none_witness :
    ({ row := { kind := OwnerKind.group, oid := 7 },
       owner := OwnerObj.other : OwnerRec }).owner = OwnerObj.other
    ∧ (get_related_owners [] []
        { row := { kind := OwnerKind.group, oid := 7 },
          owner := OwnerObj.other } true = none
      ∧ is_user_allowed [] []
          { row := { kind := OwnerKind.group, oid := 7 },
            owner := OwnerObj.other } none true
          = Except.error ("TypeError: argument of type NoneType is not " ++
            "iterable")) :=
  ⟨rfl, (c10_related_owners_none [] []
    { row := { kind := OwnerKind.group, oid := 7 }, owner := OwnerObj.other }
    true none).2 rfl⟩


/-! ### C5: add wins over remove in a reconciliation pass -/

theorem contains_mem {α : Type} [BEq α] [LawfulBEq α] {l : List α} {a : α} :
    l.contains a = true ↔ a ∈ l := by
  simp [List.contains]

theorem mem_set_insert {α : Type} [BEq α] [LawfulBEq α] {l : List α} {a x : α} :
    x ∈ set_insert l a ↔ x = a ∨ x ∈ l := by
  unfold set_insert
  split
  · next hc =>
    constructor
    · exact Or.inr
    · rintro (rfl | hx)
      · exact contains_mem.mp hc
      · exact hx
  · simp [List.mem_cons]

theorem mem_set_remove {α : Type} [BEq α] [LawfulBEq α] {l : List α} {a x : α} :
    x ∈ set_remove l a ↔ x ∈ l ∧ x ≠ a := by
  simp [set_remove, List.mem_filter]

/-- The two branch shapes of `add_model`, with the `let` inlined. -/
theorem add_model_eq (st : DiffState) (m a : String) (al : Bool) :
    add_model st m a al =
      if al then
        { to_add := set_insert st.to_add (get_model_permission_string m a),
          to_delete := set_remove st.to_delete (get_model_permission_string m a) }
      else if st.to_add.contains (get_model_permission_string m a) then st
      else { st with
             to_delete := set_insert st.to_delete
               (get_model_permission_string m a) } := rfl

/-- Once a permission string is in the add set, any later `add_model`
call keeps it there. -/
theorem add_model_to_add_mono (st : DiffState) (m a : String) (al : Bool)
    {p : String} (hp : p ∈ st.to_add) : p ∈ (add_model st m a al).to_add := by
  rw [add_model_eq]
  split
  · exact mem_set_insert.mpr (Or.inr hp)
  · split
    · exact hp
    · exact hp

/-- Once a permission string is in the add set, the rest of the event
fold keeps it there. -/
theorem run_events_to_add_mono (evs : List (String × String × Bool))
    (st : DiffState) {p : String} (hp : p ∈ st.to_add) :
    p ∈ (run_events st evs).to_add := by
  induction evs generalizing st with
  | nil => exact hp
  | cons e es ih =>
    exact ih _ (add_model_to_add_mono st e.1 e.2.1 e.2.2 hp)

/-- An allowed `add_model` call puts its permission string into the
add set. -/
theorem add_model_allowed_mem (st : DiffState) (m a : String) :
    get_model_permission_string m a ∈ (add_model st m a true).to_add := by
  rw [add_model_eq]
  exact mem_set_insert.mpr (Or.inl rfl)

/-- The disjointness invariant of the two `add_model` sets. -/
def DiffDisjoint (st : DiffState) : Prop :=
  ∀ p : String, p ∈ st.to_add → p ∉ st.to_delete

theorem add_model_preserves_disjoint (st : DiffState) (m a : String)
    (al : Bool) (h : DiffDisjoint st) : DiffDisjoint (add_model st m a al) := by
  intro p hpadd hpdel
  rw [add_model_eq] at hpadd hpdel
  cases al with
  | true =>
    simp only [if_pos rfl] at hpadd hpdel
    rcases mem_set_insert.mp hpadd with rfl | hpa
    · exact (mem_set_remove.mp hpdel).2 rfl
    · exact h p hpa (mem_set_remove.mp hpdel).1
  | false =>
    simp only [Bool.false_eq_true, if_neg, ite_false] at hpadd hpdel
    by_cases hc : st.to_add.contains (get_model_permission_string m a) = true
    · rw [if_pos hc] at hpadd hpdel
      exact h p hpadd hpdel
    · rw [if_neg hc] at hpadd hpdel
      rcases mem_set_insert.mp hpdel with rfl | hpd
      · exact hc (contains_mem.mpr hpadd)
      · exact h p hpadd hpd

theorem run_events_preserves_disjoint (evs : List (String × String × Bool))
    (st : DiffState) (h : DiffDisjoint st) :
    DiffDisjoint (run_events st evs) := by
  induction evs generalizing st with
  | nil => exact h
  | cons e es ih =>
    exact ih _ (add_model_preserves_disjoint st e.1 e.2.1 e.2.2 h)

/-- C5: within a single reconciliation pass, the to-remove set is
disjoint from the to-add set, and a permission string marked allowed
by any ruleset — in any order relative to forbidden markings for the
same string — is in the final add set and never in the final remove
set. -/
theorem c5_add_wins (events : List (String × String × Bool)) (m a : String)
    (h : (m, a, true) ∈ events) :
    get_model_permission_string m a ∈ (run_events ⟨[], []⟩ events).to_add
    ∧ get_model_permission_string m a ∉ (run_events ⟨[], []⟩ events).to_delete
    ∧ ∀ p : String, p ∈ (run_events ⟨[], []⟩ events).to_add →
        p ∉ (run_events ⟨[], []⟩ events).to_delete := by
  have hdisj : DiffDisjoint (run_events ⟨[], []⟩ events) :=
    run_events_preserves_disjoint events ⟨[], []⟩ (fun p hp => nomatch hp)
  have hmem : ∀ (evs : List (String × String × Bool)) (st : DiffState),
      (m, a, true) ∈ evs →
      get_model_permission_string m a ∈ (run_events st evs).to_add := by
    intro evs
    induction evs with
    | nil => intro st hst; exact absurd hst (List.not_mem_nil _)
    | cons e es ih =>
      intro st hst
      rcases List.mem_cons.mp hst with rfl | hes
      · exact run_events_to_add_mono es _ (add_model_allowed_mem st m a)
      · exact ih _ hes
  have hin := hmem events ⟨[], []⟩ h
  exact ⟨hin, hdisj _ hin, hdisj⟩

/-- C5 witness: a forbidden marking followed by an allowed marking for
the same permission string. -/
theorem c5_add_wins_witness :
    (("part_part", "view", true)
        ∈ [("part_part", "view", false), ("part_part", "view", true)])
    ∧ (get_model_permission_string ("part_part") ("view")
        ∈ (run_events ⟨[], []⟩
            [("part_part", "view", false), ("part_part", "view", true)]).to_add
      ∧ get_model_permission_string ("part_part") ("view")
        ∉ (run_events ⟨[], []⟩
            [("part_part", "view", false), ("part_part", "view", true)]).to_delete
      ∧ ∀ p : String, p ∈ (run_events ⟨[], []⟩
            [("part_part", "view", false), ("part_part", "view", true)]).to_add →
          p ∉ (run_events ⟨[], []⟩
            [("part_part", "view", false), ("part_part", "view", true)]).to_delete) :=
  ⟨by decide,
   c5_add_wins [("part_part", "view", false), ("part_part", "view", true)]
     ("part_part") ("view") (by decide)⟩

/-! ### C6: union of grants across overlapping rulesets -/

/-- On a cold cache, `check_user_role` for a non-superuser is exactly
the scan of the user's groups' rule sets. -/
theorem check_user_role_cold (u : UserRec) (role permission : String)
    (hsu : u.is_superuser = false) :
    check_user_role empty_cache (some u) role permission
      = u.groups.any (fun g => g.rule_sets.any (fun r =>
          r.name == role && action_granted r permission)) := by
  simp [check_user_role, empty_cache, hsu]

/-- The ∃-form of a granted role: some group of the user has a rule
set row named `role` whose flag for `permission` is set. -/
def RoleGranted (u : UserRec) (role permission : String) : Prop :=
  ∃ g ∈ u.groups, ∃ r ∈ g.rule_sets, r.name = role ∧ action_granted r permission = true

theorem check_user_role_cold_iff (u : UserRec) (role permission : String)
    (hsu : u.is_superuser = false) :
    check_user_role empty_cache (some u) role permission = true
      ↔ RoleGranted u role permission := by
  rw [check_user_role_cold u role permission hsu]
  simp [RoleGranted, List.any_eq_true]

/-- C6: for a non-superuser and a non-exempt table, permission is the
union of grants across the rulesets governing the table: if any
governing ruleset is granted to any of the user's groups the check
passes, and the check returns false only when no governing ruleset
grants the action. -/
theorem c6_union_across_rulesets (u : UserRec) (table permission : String)
    (hsu : u.is_superuser = false)
    (hexempt : get_ruleset_ignore.contains table = false) :
    ((∃ role ∈ RULESET_NAMES, (get_ruleset_models role).contains table = true
        ∧ RoleGranted u role permission) →
      check_table_permission empty_cache (some u) table permission
        = Except.ok true)
    ∧ (check_table_permission empty_cache (some u) table permission
        = Except.ok false →
      ∀ role ∈ RULESET_NAMES, (get_ruleset_models role).contains table = true →
        ¬RoleGranted u role permission) := by
  constructor
  · rintro ⟨role, hrole, hgov, hgrant⟩
    have hany : RULESET_NAMES.any (fun role =>
        (get_ruleset_models role).contains table &&
        check_user_role empty_cache (some u) role permission) = true := by
      rw [List.any_eq_true]
      refine ⟨role, hrole, ?_⟩
      rw [Bool.and_eq_true, hgov]
      exact ⟨rfl, (check_user_role_cold_iff u role permission hsu).mpr hgrant⟩
    simp only [check_table_permission]
    rw [hsu, hexempt, hany]
    simp
  · intro hres role hrole hgov hgrant
    have hok : check_table_permission empty_cache (some u) table permission
        = Except.ok true := by
      have hany : RULESET_NAMES.any (fun role =>
          (get_ruleset_models role).contains table &&
          check_user_role empty_cache (some u) role permission) = true := by
        rw [List.any_eq_true]
        refine ⟨role, hrole, ?_⟩
        rw [Bool.and_eq_true, hgov]
        exact ⟨rfl, (check_user_role_cold_iff u role permission hsu).mpr hgrant⟩
      simp only [check_table_permission]
      rw [hsu, hexempt, hany]
      simp
    rw [hok] at hres
    exact absurd hres (by simp)

/-- A user for the C6 witness: one group granted `view` on the `part`
ruleset only. -/
def c6_user : UserRec :=
  { id := 1, is_superuser := false,
    groups := [{ id := 1, gname := "g",
                 rule_sets := [{ name := "part", flags := { can_view := true } }],
                 permissions := [] }],
    perms := [] }

/-- C6 witness: the union property evaluated for `part_part` / `view`
(a table governed by both the `part` and `build` rulesets, granted
only through `part`). -/
theorem c6_union_across_rulesets_witness :
    c6_user.is_superuser = false
    ∧ get_ruleset_ignore.contains ("part_part") = false
    ∧ (((∃ role ∈ RULESET_NAMES,
          (get_ruleset_models role).contains ("part_part") = true
          ∧ RoleGranted c6_user role ("view")) →
        check_table_permission empty_cache (some c6_user) ("part_part") ("view")
          = Except.ok true)
      ∧ (check_table_permission empty_cache (some c6_user) ("part_part") ("view")
          = Except.ok false →
        ∀ role ∈ RULESET_NAMES,
          (get_ruleset_models role).contains ("part_part") = true →
            ¬RoleGranted c6_user role ("view"))) :=
  ⟨rfl, by decide,
   c6_union_across_rulesets c6_user ("part_part") ("view") rfl (by decide)⟩

/-! ### C9: the primary_group invariant -/

theorem profile_save_fix_user_id (ms : List (Nat × Nat)) (p : ProfileRec) :
    (profile_save_fix ms p).user_id = p.user_id := by
  unfold profile_save_fix
  cases p.primary_group with
  | none => rfl
  | some g => dsimp only; split <;> rfl

theorem profile_save_fix_sound (ms : List (Nat × Nat)) (p : ProfileRec)
    (gg : Nat) (h : (profile_save_fix ms p).primary_group = some gg) :
    (p.user_id, gg) ∈ ms := by
  unfold profile_save_fix at h
  cases hpg : p.primary_group with
  | none =>
    rw [hpg] at h
    dsimp only at h
    rw [hpg] at h
    exact Option.noConfusion h
  | some g0 =>
    rw [hpg] at h
    dsimp only at h
    by_cases hin : in_groups ms p.user_id g0 = true
    · rw [if_pos hin] at h
      rw [hpg] at h
      have : g0 = gg := by injection h
      subst this
      exact contains_mem.mp hin
    · rw [if_neg hin] at h
      exact absurd h (by simp)

/-- The ∀-form of `profiles_consistent`. -/
theorem profiles_consistent_iff (st : ProfileState) :
    profiles_consistent st = true
      ↔ ∀ p ∈ st.profiles, ∀ gg : Nat, p.primary_group = some gg →
          (p.user_id, gg) ∈ st.memberships := by
  unfold profiles_consistent
  rw [List.all_eq_true]
  constructor
  · intro h p hp gg hgg
    have := h p hp
    rw [hgg] at this
    exact contains_mem.mp this
  · intro h p hp
    cases hpg : p.primary_group with
    | none => simp
    | some gg =>
      simpa using contains_mem.mpr (h p hp gg hpg)

/-- C9: the `primary_group` invariant — a set `primary_group` always
refers to a group its user currently belongs to — is preserved by
every modelled operation: profile save, group save, group delete,
membership add and membership remove (each operation runs its
clearing handler from the source). -/
theorem c9_primary_group_invariant (st : ProfileState) (u g : Nat)
    (pg : Option Nat) (h : profiles_consistent st = true) :
    profiles_consistent (op_profile_save st u pg) = true
    ∧ profiles_consistent (op_group_save st g) = true
    ∧ profiles_consistent (op_group_delete st g) = true
    ∧ profiles_consistent (op_membership_add st u g) = true
    ∧ profiles_consistent (op_membership_remove st u g) = true := by
  rw [profiles_consistent_iff] at h
  refine ⟨?_, ?_, ?_, ?_, ?_⟩ <;> rw [profiles_consistent_iff]
  · -- profile save
    simp only [op_profile_save]
    intro p' hp' gg hgg
    rcases List.mem_map.mp hp' with ⟨p, hp, rfl⟩
    by_cases hu : (p.user_id == u) = true
    · rw [if_pos hu] at hgg ⊢
      rw [profile_save_fix_user_id]
      exact profile_save_fix_sound _ _ _ hgg
    · rw [if_neg hu] at hgg ⊢
      exact h p hp gg hgg
  · -- group save
    simp only [op_group_save]
    intro p' hp' gg hgg
    rcases List.mem_map.mp hp' with ⟨p, hp, rfl⟩
    by_cases hm : in_groups st.memberships p.user_id g = true
    · rw [if_pos hm] at hgg ⊢
      rw [profile_save_fix_user_id]
      exact profile_save_fix_sound _ _ _ hgg
    · rw [if_neg hm] at hgg ⊢
      exact h p hp gg hgg
  · -- group delete
    simp only [op_group_delete]
    intro p' hp' gg hgg
    rcases List.mem_map.mp hp' with ⟨q, hq, rfl⟩
    rcases List.mem_map.mp hq with ⟨p, hp, rfl⟩
    by_cases h1 : (p.primary_group == some g) = true
    · rw [if_pos h1] at hgg ⊢
      have hq2 : (((st.memberships.filter (fun m => m.2 == g)).map
            (fun m => m.1)).contains
              ({ p with primary_group := none } : ProfileRec).user_id
          && (({ p with primary_group := none } : ProfileRec).primary_group
            == some g)) = true → False := by
        intro hcond
        simp at hcond
      by_cases h2 : (((st.memberships.filter (fun m => m.2 == g)).map
            (fun m => m.1)).contains
              ({ p with primary_group := none } : ProfileRec).user_id
          && (({ p with primary_group := none } : ProfileRec).primary_group
            == some g)) = true
      · exact absurd h2 hq2
      · rw [if_neg h2] at hgg ⊢
        exact absurd hgg (by simp)
    · rw [if_neg h1] at hgg ⊢
      by_cases h2 : (((st.memberships.filter (fun m => m.2 == g)).map
            (fun m => m.1)).contains p.user_id
          && (p.primary_group == some g)) = true
      · exact absurd h2 (by
          intro hcond
          exact h1 ((Bool.and_eq_true _ _).mp hcond).2)
      · rw [if_neg h2] at hgg ⊢
        have hmem := h p hp gg hgg
        have hne : gg ≠ g := by
          intro hEq
          subst hEq
          rw [hgg] at h1
          exact h1 (by simp)
        exact List.mem_filter.mpr ⟨hmem, by simp [hne]⟩
  · -- membership add
    simp only [op_membership_add]
    intro p' hp' gg hgg
    rcases List.mem_map.mp hp' with ⟨p, hp, rfl⟩
    by_cases hu : (p.user_id == u) = true
    · rw [if_pos hu] at hgg ⊢
      rw [profile_save_fix_user_id]
      exact profile_save_fix_sound _ _ _ hgg
    · rw [if_neg hu] at hgg ⊢
      exact mem_set_insert.mpr (Or.inr (h p hp gg hgg))
  · -- membership remove
    simp only [op_membership_remove]
    intro p' hp' gg hgg
    rcases List.mem_map.mp hp' with ⟨p, hp, rfl⟩
    by_cases hu : (p.user_id == u) = true
    · rw [if_pos hu] at hgg ⊢
      rw [profile_save_fix_user_id]
      exact profile_save_fix_sound _ _ _ hgg
    · rw [if_neg hu] at hgg ⊢
      have hmem := h p hp gg hgg
      have hne : p.user_id ≠ u := by
        intro hEq
        exact hu (by simp [hEq])
      refine List.mem_filter.mpr ⟨hmem, ?_⟩
      simp only [Bool.not_eq_eq_eq_not, Bool.not_true, beq_eq_false_iff_ne]
      intro hEq
      exact hne (by
        have := congrArg Prod.fst hEq
        simpa using this)

/-- C9 witness: the invariant preserved from a concrete consistent
state. -/
theorem c9_primary_group_invariant_witness :
    profiles_consistent
      { memberships := [(1, 10)],
        profiles := [{ user_id := 1, primary_group := some 10 }] } = true
    ∧ (profiles_consistent (op_profile_save
        { memberships := [(1, 10)],
          profiles := [{ user_id := 1, primary_group := some 10 }] } 1
          (some 10)) = true
      ∧ profiles_consistent (op_group_save
        { memberships := [(1, 10)],
          profiles := [{ user_id := 1, primary_group := some 10 }] } 10) = true
      ∧ profiles_consistent (op_group_delete
        { memberships := [(1, 10)],
          profiles := [{ user_id := 1, primary_group := some 10 }] } 10) = true
      ∧ profiles_consistent (op_membership_add
        { memberships := [(1, 10)],
          profiles := [{ user_id := 1, primary_group := some 10 }] } 1 10) = true
      ∧ profiles_consistent (op_membership_remove
        { memberships := [(1, 10)],
          profiles := [{ user_id := 1, primary_group := some 10 }] } 1 10)
          = true) :=
  ⟨by decide,
   c9_primary_group_invariant
     { memberships := [(1, 10)],
       profiles := [{ user_id := 1, primary_group := some 10 }] } 1 10
     (some 10) (by decide)⟩


/-! ### C3 / C4: the inheritance block of `update_group_roles`

To settle the two claims on concrete groups without evaluating the
whole quadratic event fold, the reconciliation pipeline is
characterized first: membership in the fold's add set is exactly
"some allowed event produced this permission string", a pass run from
an empty permission set reduces to that filtered add set, and the
inheritance loop adds exactly the child permissions whose guards pass
against the pass's starting snapshot. -/

/-- The permission string produced by one `add_model` event. -/
def ev_string (e : String × String × Bool) : String :=
  get_model_permission_string e.1 e.2.1

/-- Does some allowed event of the list produce permission string
`p`? -/
def has_allowed (evs : List (String × String × Bool)) (p : String) : Bool :=
  evs.any (fun e => e.2.2 && (ev_string e == p))

theorem add_model_to_add_iff (st : DiffState) (m a : String) (al : Bool)
    (p : String) :
    p ∈ (add_model st m a al).to_add
      ↔ p ∈ st.to_add
        ∨ (al && (get_model_permission_string m a == p)) = true := by
  cases al with
  | true =>
    have h1 : (add_model st m a true).to_add
        = set_insert st.to_add (get_model_permission_string m a) := rfl
    rw [h1, mem_set_insert]
    simp only [Bool.true_and, beq_iff_eq]
    constructor
    · rintro (rfl | hp)
      exacts [Or.inr rfl, Or.inl hp]
    · rintro (hp | rfl)
      exacts [Or.inr hp, Or.inl rfl]
  | false =>
    have h2 : (add_model st m a false).to_add = st.to_add := by
      rw [add_model_eq]
      split
      · next hft => exact absurd hft (by simp)
      · split <;> rfl
    rw [h2]
    simp

theorem run_events_to_add_iff (evs : List (String × String × Bool))
    (st : DiffState) (p : String) :
    p ∈ (run_events st evs).to_add
      ↔ p ∈ st.to_add ∨ has_allowed evs p = true := by
  induction evs generalizing st with
  | nil => simp [run_events, has_allowed]
  | cons e es ih =>
    show p ∈ (run_events (add_model st e.1 e.2.1 e.2.2) es).to_add ↔ _
    rw [ih, add_model_to_add_iff]
    have : has_allowed (e :: es) p
        = ((e.2.2 && (ev_string e == p)) || has_allowed es p) := by
      simp [has_allowed]
    rw [this]
    rw [Bool.or_eq_true]
    tauto

/-- Membership in the add set built by a whole pass. -/
theorem to_add_iff_has_allowed (evs : List (String × String × Bool))
    (p : String) :
    p ∈ (run_events ⟨[], []⟩ evs).to_add ↔ has_allowed evs p = true := by
  rw [run_events_to_add_iff]
  simp

/-- A fold of a pointwise-identity function is the identity. -/
theorem foldl_eq_of_id {α β : Type} (f : α → β → α) (h : ∀ a b, f a b = a) :
    ∀ (l : List β) (a : α), l.foldl f a = a := by
  intro l
  induction l with
  | nil => intro a; rfl
  | cons x xs ih => intro a; rw [List.foldl_cons, h]; exact ih a

/-- With an empty starting snapshot the inheritance step is the
identity: its guard consults the snapshot. -/
theorem inherit_step_nil (pe : String → Bool) (sm : String) (sd : Bool)
    (acc : List String × List String × DiffState)
    (pca : String × String × String) :
    inherit_step [] pe sm sd acc pca = acc := rfl

/-- A reconciliation pass over an empty current permission set: no
permission is removed, the inheritance loop never fires, and the final
permission set is exactly the resolvable part of the pass's add set. -/
theorem update_group_roles_nil (flags : String → RuleFlags)
    (pe : String → Bool) :
    update_group_roles flags [] pe =
      { final := (run_events ⟨[], []⟩ (group_events flags)).to_add.filter pe,
        added := (run_events ⟨[], []⟩ (group_events flags)).to_add.filter pe,
        removed := [] } := by
  have hadds : (run_events ⟨[], []⟩ (group_events flags)).to_add.filter
      (fun p => !(List.contains [] p) && pe p)
      = (run_events ⟨[], []⟩ (group_events flags)).to_add.filter pe := by
    apply List.filter_congr
    intro a _
    simp [List.contains]
  have hremoves : (run_events ⟨[], []⟩ (group_events flags)).to_delete.filter
      (fun p => List.contains [] p && pe p) = [] := by
    apply List.filter_eq_nil_iff.mpr
    intro a _
    simp [List.contains]
  have hself : ∀ l : List String,
      l.filter (fun p => !(List.contains [] p)) = l := by
    intro l
    apply List.filter_eq_self.mpr
    intro a _
    simp [List.contains]
  simp only [update_group_roles, hadds, hremoves,
    foldl_eq_of_id _ (inherit_step_nil pe _ _), List.nil_append,
    List.append_nil, hself]

/-- The final-set component of `update_group_roles_nil`. -/
theorem update_group_roles_nil_final (flags : String → RuleFlags)
    (pe : String → Bool) :
    (update_group_roles flags [] pe).final
      = (run_events ⟨[], []⟩ (group_events flags)).to_add.filter pe := by
  rw [update_group_roles_nil]

theorem inherit_step_fst_mono (current : List String) (pe : String → Bool)
    (sm : String) (sd : Bool) (acc : List String × List String × DiffState)
    (pca : String × String × String) {p : String} (hp : p ∈ acc.1) :
    p ∈ (inherit_step current pe sm sd acc pca).1 := by
  simp only [inherit_step]
  split
  · split
    · exact hp
    · split
      · exact mem_set_insert.mpr (Or.inr hp)
      · exact hp
  · exact hp

theorem foldl_inherit_fst_mono (steps : List (String × String × String))
    (current : List String) (pe : String → Bool) (sm : String) (sd : Bool)
    (acc : List String × List String × DiffState) {p : String}
    (hp : p ∈ acc.1) :
    p ∈ (steps.foldl (inherit_step current pe sm sd) acc).1 := by
  induction steps generalizing acc with
  | nil => exact hp
  | cons s ss ih =>
    rw [List.foldl_cons]
    exact ih _ (inherit_step_fst_mono current pe sm sd acc s hp)

/-- When the inheritance guards pass — the parent table's permission
for the action is in the pass's starting snapshot, the child's is not,
and the child permission resolves — the step inserts the child
permission into the evolving permission set. -/
theorem inherit_step_adds_child (current : List String) (pe : String → Bool)
    (sm : String) (sd : Bool) (acc : List String × List String × DiffState)
    (parent child action : String)
    (hpar : current.contains (parent ++ "." ++ action ++ "_" ++ parent) = true)
    (hchild : current.contains (parent ++ "." ++ action ++ "_" ++ child) = false)
    (hpe : pe (parent ++ "." ++ action ++ "_" ++ child) = true) :
    (parent ++ "." ++ action ++ "_" ++ child)
      ∈ (inherit_step current pe sm sd acc (parent, child, action)).1 := by
  simp only [inherit_step, hpar, hchild, hpe, Bool.false_eq_true, if_true,
    if_false]
  exact mem_set_insert.mpr (Or.inl rfl)

theorem foldl_inherit_adds_child (steps : List (String × String × String))
    (current : List String) (pe : String → Bool) (sm : String) (sd : Bool)
    (acc : List String × List String × DiffState)
    (parent child action : String)
    (hmem : (parent, child, action) ∈ steps)
    (hpar : current.contains (parent ++ "." ++ action ++ "_" ++ parent) = true)
    (hchild : current.contains (parent ++ "." ++ action ++ "_" ++ child) = false)
    (hpe : pe (parent ++ "." ++ action ++ "_" ++ child) = true) :
    (parent ++ "." ++ action ++ "_" ++ child)
      ∈ (steps.foldl (inherit_step current pe sm sd) acc).1 := by
  induction steps generalizing acc with
  | nil => exact absurd hmem (List.not_mem_nil _)
  | cons s ss ih =>
    rw [List.foldl_cons]
    rcases List.mem_cons.mp hmem with heq | hss
    · rw [← heq]
      exact foldl_inherit_fst_mono ss current pe sm sd _
        (inherit_step_adds_child current pe sm sd acc parent child action
          hpar hchild hpe)
    · exact ih _ hss

/-- The final permission set of a pass, unfolded to the inheritance
fold it is defined from. -/
theorem update_group_roles_final_unfold (flags : String → RuleFlags)
    (current : List String) (pe : String → Bool) :
    (update_group_roles flags current pe).final
      = ((RULESET_CHANGE_INHERIT.flatMap (fun pc =>
            ["view", "change", "add", "delete"].map (fun a => (pc.1, pc.2, a)))).foldl
          (inherit_step current pe
            ((get_ruleset_models (RULESET_NAMES.getLastD "")).getLastD "")
            ((flags (RULESET_NAMES.getLastD "")).can_delete))
          ((current ++ (run_events ⟨[], []⟩ (group_events flags)).to_add.filter
               (fun p => !(current.contains p) && pe p)).filter
             (fun p => !(((run_events ⟨[], []⟩ (group_events flags)).to_delete.filter
               (fun p => current.contains p && pe p)).contains p)),
           [],
           run_events ⟨[], []⟩ (group_events flags))).1 := rfl

/-- A group's rule rows where the `part` ruleset has been granted
`change` (with `can_view` forced by the save normalization) and every
other ruleset is untouched (all-false). -/
def c3_flags : String → RuleFlags := fun n =>
  if n == "part" then { can_view := true, can_change := true } else {}

/-- A non-superuser member of a group whose `part` ruleset row grants
`view` and `change`. -/
def c3_user : UserRec :=
  { id := 2, is_superuser := false,
    groups := [{ id := 1, gname := "g",
                 rule_sets := [{ name := "part",
                                 flags := { can_view := true,
                                            can_change := true } }],
                 permissions := [] }],
    perms := [] }

/-- C3: with `change` granted on the parent ruleset `part`,
`check_table_permission` does answer true for the child table
`part_partparameter` for any action (here `delete`), but the
reconciliation pass run from an empty materialized permission set does
NOT force all four actions for the child: the final permission set
has view and change but lacks both `part.add_partparameter` and
`part.delete_partparameter` (the inheritance block tests each action
against the stale pre-pass permission snapshot instead of testing
`change` on the parent, contradicting its own comment "Enable all
action permissions ... if parent model has 'change' permission"). -/
theorem c3_inheritance_divergence :
    check_user_role empty_cache (some c3_user) ("part") ("change") = true
    ∧ check_table_permission empty_cache (some c3_user) ("part_partparameter")
        ("delete") = Except.ok true
    ∧ ("part.view_partparameter")
        ∈ (update_group_roles c3_flags [] all_perms_exist).final
    ∧ ("part.change_partparameter")
        ∈ (update_group_roles c3_flags [] all_perms_exist).final
    ∧ ("part.add_partparameter")
        ∉ (update_group_roles c3_flags [] all_perms_exist).final
    ∧ ("part.delete_partparameter")
        ∉ (update_group_roles c3_flags [] all_perms_exist).final := by
  have hfin := update_group_roles_nil_final c3_flags all_perms_exist
  have hmem : ∀ p : String,
      p ∈ (update_group_roles c3_flags [] all_perms_exist).final
        ↔ has_allowed (group_events c3_flags) p = true := by
    intro p
    rw [hfin, List.mem_filter, to_add_iff_has_allowed]
    simp [all_perms_exist]
  refine ⟨rfl, rfl, ?_, ?_, ?_, ?_⟩
  · exact (hmem _).mpr (by decide!)
  · exact (hmem _).mpr (by decide!)
  · intro h
    exact absurd ((hmem _).mp h) (by decide!)
  · intro h
    exact absurd ((hmem _).mp h) (by decide!)

/-- A group's rule rows where the `build` ruleset has view, change and
delete granted (a normalized row) and every other ruleset — the
`part` ruleset included — is all-false. -/
def c4_flags : String → RuleFlags := fun n =>
  if n == "build" then
    { can_view := true, can_change := true, can_delete := true }
  else {}

/-- The first reconciliation pass for a fresh group (empty permission
set) with `c4_flags`. -/
def c4_r1 : ReconcileResult := update_group_roles c4_flags [] all_perms_exist

/-- The second, immediately successive pass, with no intervening
writes. -/
def c4_r2 : ReconcileResult :=
  update_group_roles c4_flags c4_r1.final all_perms_exist

/-- C4: `update_group_roles` is not idempotent. The first pass
materializes `part.delete_part` (the `part_part` table is also
governed by `build`) but not `part.delete_partparameter`; the second
pass — with no intervening writes — then fires the inheritance block
against the now-populated snapshot and adds
`part.delete_partparameter`, a permission forbidden by every ruleset
governing that table, so the second call mutates the substrate and
changes the permission set. -/
theorem c4_not_idempotent :
    ("part.delete_partparameter") ∉ c4_r1.final
    ∧ ("part.delete_partparameter") ∈ c4_r2.final
    ∧ c4_r2.final ≠ c4_r1.final := by
  have hfin1 : c4_r1.final
      = (run_events ⟨[], []⟩ (group_events c4_flags)).to_add.filter
          all_perms_exist := update_group_roles_nil_final c4_flags all_perms_exist
  have hmem1 : ∀ p : String,
      p ∈ c4_r1.final ↔ has_allowed (group_events c4_flags) p = true := by
    intro p
    rw [hfin1, List.mem_filter, to_add_iff_has_allowed]
    simp [all_perms_exist]
  have hnot1 : ("part.delete_partparameter") ∉ c4_r1.final := by
    intro h
    exact absurd ((hmem1 _).mp h) (by decide!)
  have hpar : c4_r1.final.contains
      ("part" ++ "." ++ "delete" ++ "_" ++ "part") = true :=
    contains_mem.mpr ((hmem1 _).mpr (by decide!))
  have hchild : c4_r1.final.contains
      ("part" ++ "." ++ "delete" ++ "_" ++ "partparameter") = false := by
    cases hcb : c4_r1.final.contains
        ("part" ++ "." ++ "delete" ++ "_" ++ "partparameter") with
    | false => rfl
    | true =>
      exact absurd ((hmem1 _).mp (contains_mem.mp hcb)) (by decide!)
  have hin2 : ("part.delete_partparameter") ∈ c4_r2.final := by
    show ("part.delete_partparameter")
      ∈ (update_group_roles c4_flags c4_r1.final all_perms_exist).final
    rw [update_group_roles_final_unfold,
      show ("part.delete_partparameter" : String)
        = ("part" ++ "." ++ "delete" ++ "_" ++ "partparameter") from rfl]
    exact foldl_inherit_adds_child _ _ _ _ _ _ ("part") ("partparameter")
      ("delete") (by decide) hpar hchild rfl
  refine ⟨hnot1, hin2, ?_⟩
  intro heq
  exact hnot1 (heq ▸ hin2)
